import Mathlib

/-!
Verification of the flappycube game logic (src/main.rs).

The game state and its update rules are shallowly embedded: `f32` arithmetic
is modelled by exact rationals (all quantities the game manipulates are sums
and differences of decimal literals, so ℚ mirrors the source arithmetic),
Rust's `as i32` cast is modelled by truncation toward zero, and the calls to
`rand::thread_rng` are modelled by explicit parameters constrained to the
ranges `gen_range` guarantees.  Sounds and draw calls are side effects with
no influence on the game state and are omitted.
-/

namespace FlappyCube

/-- `graphics::Rect`: axis-aligned rectangle with position and size. -/
structure Rect where
  x : ℚ
  y : ℚ
  w : ℚ
  h : ℚ
deriving DecidableEq

/-- `graphics::Color`: an RGBA value. -/
structure Color where
  r : ℚ
  g : ℚ
  b : ℚ
  a : ℚ
deriving DecidableEq

/-- `mint::Point2<f32>`. -/
structure Point2 where
  x : ℚ
  y : ℚ
deriving DecidableEq

/-- Constant `WINDOW_WIDTH` (main.rs line 16). -/
def WINDOW_WIDTH : ℚ := 800

/-- Constant `WINDOW_HEIGHT` (main.rs line 17). -/
def WINDOW_HEIGHT : ℚ := 600

/-- Constant `NUM_PILLARS` (main.rs line 23). -/
def NUM_PILLARS : Nat := 5

/-- Constant `PILLAR_GAP` (main.rs line 25). -/
def PILLAR_GAP : ℚ := 220

/-- Constant `PILLAR_DISTANCE` (main.rs line 27). -/
def PILLAR_DISTANCE : ℚ := 300

/-- Constant `PILLAR_WIDTH` (main.rs line 29). -/
def PILLAR_WIDTH : ℚ := 80

/-- Constant `PILLAR_ACCELERATION` (main.rs line 31). -/
def PILLAR_ACCELERATION : ℚ := -0.0004

/-- Constant `GRAVITY` (main.rs line 34). -/
def GRAVITY : ℚ := 1

/-- Constant `JUMP_AMOUNT` (main.rs line 37). -/
def JUMP_AMOUNT : ℚ := -10

/-- `collide_rect` (main.rs lines 40-46): strict overlap test of two
axis-aligned rectangles on both axes. -/
def collide_rect (rect1 rect2 : Rect) : Bool :=
  decide (rect1.x < rect2.x + rect2.w) && decide (rect1.x + rect1.w > rect2.x) &&
    decide (rect1.y < rect2.y + rect2.h) && decide (rect1.y + rect1.h > rect2.y)

/-- Rust's `as i32` cast on an (in-range) `f32` value: truncation toward
zero.  On a rational `num / den` with `den > 0` this is `Int.tdiv`. -/
def truncQ (q : ℚ) : Int := q.num.tdiv q.den

/-- The `Pillar` struct (main.rs lines 66-71). -/
structure Pillar where
  color : Color
  top : Rect
  bottom : Rect
deriving DecidableEq

/-- Default values standing for the panic case of a Rust out-of-bounds
index; every index the program uses is in range. -/
def dfltColor : Color := ⟨0, 0, 0, 0⟩

/-- Default pillar for out-of-range list reads (never reachable). -/
def dfltPillar : Pillar := ⟨dfltColor, ⟨0, 0, 0, 0⟩, ⟨0, 0, 0, 0⟩⟩

/-- `Pillar::update` (main.rs lines 75-95).  Translates both blocks by
`speed`; if the top block's right edge has crossed `x = 0`, recycles the
pillar: both blocks move to `last_x + PILLAR_DISTANCE`, the color becomes
`colors_list[rndColor]` and the gap-top height becomes `rndHeight`
(`rndColor` and `rndHeight` stand for the two `thread_rng` draws). -/
def Pillar.update (p : Pillar) (colors_list : List Color) (last_x speed : ℚ)
    (rndColor : Nat) (rndHeight : ℚ) : Pillar :=
  let top := { p.top with x := p.top.x + speed }
  let bottom := { p.bottom with x := p.bottom.x + speed }
  if top.x + PILLAR_WIDTH ≤ 0 then
    { color := colors_list.getD rndColor dfltColor,
      top := { top with x := last_x + PILLAR_DISTANCE, h := rndHeight },
      bottom := { bottom with
                    x := last_x + PILLAR_DISTANCE,
                    y := rndHeight + PILLAR_GAP,
                    h := WINDOW_HEIGHT - (rndHeight + PILLAR_GAP) } }
  else
    { p with top := top, bottom := bottom }

/-- The `Player` struct (main.rs lines 120-125). -/
structure Player where
  color_index : Nat
  color : Color
  body : Rect
  velocity : Point2
deriving DecidableEq

/-- The horizontal-overlap guard of the collision loop (main.rs line 132):
`self.body.x < pillar.top.x + pillar.top.w && self.body.x + self.body.w >
pillar.top.x`. -/
def hitsX (p : Player) (pillar : Pillar) : Bool :=
  decide (p.body.x < pillar.top.x + pillar.top.w) &&
    decide (p.body.x + p.body.w > pillar.top.x)

/-- The scoring condition (main.rs line 146): the truncated horizontal
centers of player and pillar coincide. -/
def centerAligned (p : Player) (pillar : Pillar) : Bool :=
  decide (truncQ p.body.x + truncQ (p.body.w / 2)
      = truncQ pillar.top.x + truncQ (pillar.top.w / 2))

/-- One iteration of the collision loop of `Player::update` (main.rs lines
131-154), acting on the `(game_over, score)` state. -/
def stepPillar (p : Player) (st : Bool × Nat) (pillar : Pillar) : Bool × Nat :=
  if hitsX p pillar then
    let go :=
      if pillar.color ≠ p.color then true
      else if collide_rect p.body pillar.top || collide_rect p.body pillar.bottom then true
      else st.1
    let sc := if centerAligned p pillar then st.2 + 1 else st.2
    (go, sc)
  else st

/-- `Player::update` (main.rs lines 129-163): runs the collision/scoring
loop over all pillars, then applies gravity, integrates the vertical
position and applies the soft floor clamp.  Returns the updated player and
the new `(game_over, score)` pair. -/
def Player.update (p : Player) (pillars : List Pillar) (game_over : Bool)
    (score : Nat) : Player × Bool × Nat :=
  let st := pillars.foldl (stepPillar p) (game_over, score)
  let vy := p.velocity.y + GRAVITY
  let newY := p.body.y + vy
  let vy2 := if newY + p.body.h ≥ WINDOW_HEIGHT then -GRAVITY else vy
  ({ p with body := { p.body with y := newY },
            velocity := { x := p.velocity.x, y := vy2 } },
   st.1, st.2)

/-- The `Texts` struct (main.rs lines 57-63); `graphics::Text` values are
modelled by their string content. -/
structure Texts where
  intro : String
  intro_pos : Point2
  intro_offscreen : Bool
  score : String
  restart : String
deriving DecidableEq

/-- The `MainState` struct (main.rs lines 179-188), without the `Sounds`
field (sound playback has no effect on the game state). -/
structure MainState where
  colors : List Color
  player : Player
  pillars : List Pillar
  pillar_speed : ℚ
  game_over : Bool
  score : Nat
  texts : Texts
deriving DecidableEq

/-- The color scheme built in `MainState::new` (main.rs lines 195-201). -/
def colors_list : List Color :=
  [⟨0.13725491, 0.23921569, 0.3019608, 1⟩,
   ⟨0.99607843, 0.49803922, 0.1764706, 1⟩,
   ⟨0.9882353, 0.7921569, 0.27450982, 1⟩,
   ⟨0.6313726, 0.75686276, 0.5058824, 1⟩,
   ⟨0.38039216, 0.60784316, 0.5411765, 1⟩]

/-- `MainState::new` (main.rs lines 191-291).  The `thread_rng` draws are
explicit parameters: `heights i` and `colorIdxs i` are the height and
palette-index draws for pillar `i`, and `playerColorIdx` is the player's
initial palette-index draw. -/
def MainState.new (heights : Nat → ℚ) (colorIdxs : Nat → Nat)
    (playerColorIdx : Nat) : MainState :=
  { colors := colors_list,
    player :=
      { color_index := playerColorIdx,
        color := colors_list.getD playerColorIdx dfltColor,
        body := ⟨WINDOW_WIDTH / 2, WINDOW_HEIGHT / 2, 50, 50⟩,
        velocity := ⟨0, 0⟩ },
    pillars := (List.range NUM_PILLARS).map fun i =>
      { color := colors_list.getD (colorIdxs i) dfltColor,
        top := ⟨WINDOW_WIDTH + PILLAR_DISTANCE * (i : ℚ), 0, PILLAR_WIDTH, heights i⟩,
        bottom := ⟨WINDOW_WIDTH + PILLAR_DISTANCE * (i : ℚ), heights i + PILLAR_GAP,
                   PILLAR_WIDTH, WINDOW_HEIGHT - (heights i + PILLAR_GAP)⟩ },
    pillar_speed := -1,
    game_over := false,
    score := 0,
    texts :=
      { intro := "Space to jump\nCtrl to switch colors",
        intro_pos := ⟨WINDOW_WIDTH / 3, WINDOW_HEIGHT / 2.2⟩,
        intro_offscreen := false,
        score := "0",
        restart := "Oof! Press Enter to restart" } }

/-- The pillar-update loop of `EventHandler::update` (main.rs lines
309-321): every pillar advances with the x-position of its cyclic
predecessor taken from the clone of the pillar vector made before the loop
(so all predecessor positions are pre-advance positions).  `rnd i` supplies
the `(color index, height)` draws pillar `i` would consume on recycling. -/
def updatePillars (pillars : List Pillar) (colors : List Color) (speed : ℚ)
    (rnd : Nat → Nat × ℚ) : List Pillar :=
  (List.range pillars.length).map fun i =>
    let last_x :=
      if i = 0 then (pillars.getD (pillars.length - 1) dfltPillar).top.x
      else (pillars.getD (i - 1) dfltPillar).top.x
    (pillars.getD i dfltPillar).update colors last_x speed (rnd i).1 (rnd i).2

/-- One logic tick: the body of the fixed-timestep loop of
`EventHandler::update` (main.rs lines 303-334).  `introWidth` stands for
`self.texts.intro.width(ctx)` (a property of the rendered font, not of the
game state). -/
def MainState.update (s : MainState) (rnd : Nat → Nat × ℚ) (introWidth : ℚ) :
    MainState :=
  if s.game_over then s
  else
    let speed := s.pillar_speed + PILLAR_ACCELERATION
    let newPillars := updatePillars s.pillars s.colors speed rnd
    let r := s.player.update newPillars s.game_over s.score
    let texts1 := { s.texts with score := Nat.repr r.2.2 }
    let texts2 :=
      if texts1.intro_offscreen then texts1
      else
        let nx := texts1.intro_pos.x + speed
        { texts1 with
            intro_pos := ⟨nx, texts1.intro_pos.y⟩,
            intro_offscreen := decide (nx + introWidth ≤ 0) }
    { s with pillar_speed := speed, pillars := newPillars, player := r.1,
             game_over := r.2.1, score := r.2.2, texts := texts2 }

/-- The keys `key_down_event` distinguishes (main.rs lines 371-392). -/
inductive Key where
  | space
  | lcontrol
  | rcontrol
  | enter
  | other
deriving DecidableEq

/-- `key_down_event` (main.rs lines 371-392).  During play, Space overwrites
the vertical velocity with `JUMP_AMOUNT` and Ctrl advances the color index
cyclically; after a game over, Return rebuilds the state via
`MainState::new` (whose fresh `thread_rng` draws are the trailing
parameters). -/
def MainState.key_down_event (s : MainState) (keycode : Key) (heights : Nat → ℚ)
    (colorIdxs : Nat → Nat) (playerColorIdx : Nat) : MainState :=
  if ¬s.game_over then
    if keycode = Key.space then
      { s with player :=
        { s.player with velocity := { x := s.player.velocity.x, y := JUMP_AMOUNT } } }
    else if keycode = Key.lcontrol ∨ keycode = Key.rcontrol then
      let idx := (s.player.color_index + 1) % s.colors.length
      { s with player :=
        { s.player with color_index := idx, color := s.colors.getD idx dfltColor } }
    else s
  else if keycode = Key.enter then
    MainState.new heights colorIdxs playerColorIdx
  else s

/-- A session run: iterated logic ticks from a start state, with
per-tick random draws `rnd t` and intro-text widths `w t`. -/
def MainState.run (s0 : MainState) (rnd : Nat → Nat → Nat × ℚ) (w : Nat → ℚ) :
    Nat → MainState
  | 0 => s0
  | t + 1 => (MainState.run s0 rnd w t).update (rnd t) (w t)

/-- The gap invariant of a pillar (spec §3): the bottom block starts exactly
`PILLAR_GAP` below the top block's lower edge and extends to the bottom of
the window. -/
def gapInv (p : Pillar) : Prop :=
  p.bottom.y = p.top.h + PILLAR_GAP ∧ p.bottom.h = WINDOW_HEIGHT - p.bottom.y

instance (p : Pillar) : Decidable (gapInv p) := by
  unfold gapInv; infer_instance

/-! ### Helper lemmas about the collision/scoring loop -/

/-- The crash condition of one loop iteration: horizontal overlap together
with either a color mismatch or a body/block overlap. -/
def crashCond (p : Player) (pillar : Pillar) : Bool :=
  hitsX p pillar &&
    (decide (pillar.color ≠ p.color) || collide_rect p.body pillar.top ||
      collide_rect p.body pillar.bottom)

/-- The score condition of one loop iteration: horizontal overlap together
with truncated-center alignment. -/
def scoreCond (p : Player) (pillar : Pillar) : Bool :=
  hitsX p pillar && centerAligned p pillar

theorem stepPillar_fst (p : Player) (st : Bool × Nat) (pillar : Pillar) :
    (stepPillar p st pillar).1 = (st.1 || crashCond p pillar) := by
  rcases st with ⟨go, sc⟩
  unfold stepPillar crashCond
  by_cases hx : hitsX p pillar
  · by_cases hc : pillar.color = p.color
    · cases h1 : collide_rect p.body pillar.top <;>
        cases h2 : collide_rect p.body pillar.bottom <;> simp [hx, hc, h1, h2]
    · simp [hx, hc]
  · simp [hx]

theorem stepPillar_snd (p : Player) (st : Bool × Nat) (pillar : Pillar) :
    (stepPillar p st pillar).2 = st.2 + (if scoreCond p pillar then 1 else 0) := by
  rcases st with ⟨go, sc⟩
  unfold stepPillar scoreCond
  by_cases hx : hitsX p pillar
  · by_cases ha : centerAligned p pillar <;> simp [hx, ha]
  · simp [hx]

theorem foldl_stepPillar_fst (p : Player) (pillars : List Pillar) (st : Bool × Nat) :
    (pillars.foldl (stepPillar p) st).1 = (st.1 || pillars.any (crashCond p)) := by
  induction pillars generalizing st with
  | nil => simp
  | cons hd tl ih =>
    simp only [List.foldl_cons, List.any_cons]
    rw [ih, stepPillar_fst, Bool.or_assoc]

theorem foldl_stepPillar_snd (p : Player) (pillars : List Pillar) (st : Bool × Nat) :
    (pillars.foldl (stepPillar p) st).2 = st.2 + pillars.countP (scoreCond p) := by
  induction pillars generalizing st with
  | nil => simp
  | cons hd tl ih =>
    simp only [List.foldl_cons, List.countP_cons]
    rw [ih, stepPillar_snd]
    by_cases h : scoreCond p hd
    · simp only [h, if_true]
      omega
    · simp [h]

/-! ### C1 -/

/-- C1: for every pillar whose blocks horizontally overlap the player's
x-extent, a color mismatch alone makes the player tick set `game_over`,
with no condition on the player's vertical position. -/
theorem c1_color_mismatch_is_fatal (p : Player) (pillars : List Pillar)
    (game_over : Bool) (score : Nat) (pillar : Pillar)
    (hmem : pillar ∈ pillars) (hx : hitsX p pillar = true)
    (hc : pillar.color ≠ p.color) :
    (p.update pillars game_over score).2.1 = true := by
  unfold Player.update
  simp only
  rw [foldl_stepPillar_fst]
  refine Bool.or_eq_true_iff.mpr (Or.inr ?_)
  refine List.any_eq_true.mpr ⟨pillar, hmem, ?_⟩
  unfold crashCond
  simp [hx, hc]

/-- Concrete player for the C1 witness: white cube centered in the gap. -/
def c1Player : Player := ⟨0, ⟨1, 1, 1, 1⟩, ⟨400, 150, 50, 50⟩, ⟨0, 0⟩⟩

/-- Concrete pillar for the C1 witness: black pillar whose gap spans
y ∈ [100, 320], so the player's body overlaps neither block. -/
def c1Pillar : Pillar := ⟨dfltColor, ⟨380, 0, 80, 100⟩, ⟨380, 320, 80, 280⟩⟩

/-- Witness for C1: a player inside the gap of a mismatched-color pillar
(its body overlaps neither block) still crashes. -/
theorem c1_witness :
    c1Pillar ∈ [c1Pillar] ∧ hitsX c1Player c1Pillar = true ∧
    c1Pillar.color ≠ c1Player.color ∧
    collide_rect c1Player.body c1Pillar.top = false ∧
    collide_rect c1Player.body c1Pillar.bottom = false ∧
    (c1Player.update [c1Pillar] false 0).2.1 = true :=
  ⟨by with_unfolding_all decide, by with_unfolding_all decide,
   by with_unfolding_all decide, by with_unfolding_all decide,
   by with_unfolding_all decide,
   c1_color_mismatch_is_fatal c1Player [c1Pillar] false 0 c1Pillar
     (by with_unfolding_all decide) (by with_unfolding_all decide)
     (by with_unfolding_all decide)⟩

/-! ### C2 -/

/-- C2: the player tick increments the score by exactly one for each pillar
that horizontally overlaps the player's x-extent and whose truncated
horizontal center coincides with the player's; no other pillar changes the
score. -/
theorem c2_score_increment_iff_centers_align (p : Player) (pillars : List Pillar)
    (game_over : Bool) (score : Nat) :
    (p.update pillars game_over score).2.2
      = score + pillars.countP (fun pillar => hitsX p pillar && centerAligned p pillar) := by
  unfold Player.update
  simp only
  rw [foldl_stepPillar_snd]
  rfl

/-! ### Arithmetic facts about truncation toward zero -/

theorem truncQ_of_nonneg (q : ℚ) (h : 0 ≤ q) : truncQ q = ⌊q⌋ := by
  unfold truncQ
  rw [Int.tdiv_eq_ediv (Rat.num_nonneg.mpr h) (Int.ofNat_nonneg q.den), Rat.floor_def]

theorem truncQ_nonpos_of_neg (q : ℚ) (h : q < 0) : truncQ q ≤ 0 := by
  unfold truncQ
  have h2 : ¬ (0 : Int) ≤ q.num := fun hc => (not_le.mpr h) (Rat.num_nonneg.mp hc)
  have h3 := Int.tdiv_nonneg (a := -q.num) (b := (q.den : Int)) (by omega)
    (Int.ofNat_nonneg q.den)
  rw [Int.neg_tdiv] at h3
  omega

theorem lt_add_one_of_truncQ_eq (x : ℚ) (n : Int) (hn : 0 ≤ n) (h : truncQ x = n) :
    x < (n : ℚ) + 1 := by
  rcases le_or_lt 0 x with hx | hx
  · rw [truncQ_of_nonneg x hx] at h
    have h2 := Int.lt_floor_add_one x
    rw [h] at h2
    exact_mod_cast h2
  · have hn1 : (0 : ℚ) ≤ (n : ℚ) := by exact_mod_cast hn
    linarith

theorem truncQ_ne_of_lt (x : ℚ) (n : Int) (hn : 0 < n) (h : x < (n : ℚ)) :
    truncQ x ≠ n := by
  rcases le_or_lt 0 x with hx | hx
  · rw [truncQ_of_nonneg x hx]
    intro hc
    have h2 : ((n : ℚ)) ≤ x := by exact_mod_cast Int.le_floor.mp hc.ge
    linarith
  · have h2 := truncQ_nonpos_of_neg x hx
    omega

/-! ### Branch lemmas about `Pillar.update` -/

theorem Pillar.update_of_recycle (p : Pillar) (colors : List Color)
    (last_x speed : ℚ) (rc : Nat) (rh : ℚ)
    (h : p.top.x + speed + PILLAR_WIDTH ≤ 0) :
    p.update colors last_x speed rc rh =
      { color := colors.getD rc dfltColor,
        top := ⟨last_x + PILLAR_DISTANCE, p.top.y, p.top.w, rh⟩,
        bottom := ⟨last_x + PILLAR_DISTANCE, rh + PILLAR_GAP, p.bottom.w,
                   WINDOW_HEIGHT - (rh + PILLAR_GAP)⟩ } := by
  unfold Pillar.update
  rw [if_pos h]

theorem Pillar.update_of_translate (p : Pillar) (colors : List Color)
    (last_x speed : ℚ) (rc : Nat) (rh : ℚ)
    (h : ¬ (p.top.x + speed + PILLAR_WIDTH ≤ 0)) :
    p.update colors last_x speed rc rh =
      { p with top := { p.top with x := p.top.x + speed },
               bottom := { p.bottom with x := p.bottom.x + speed } } := by
  unfold Pillar.update
  rw [if_neg h]

theorem Pillar.update_top_w (p : Pillar) (colors : List Color)
    (last_x speed : ℚ) (rc : Nat) (rh : ℚ) :
    (p.update colors last_x speed rc rh).top.w = p.top.w := by
  by_cases h : p.top.x + speed + PILLAR_WIDTH ≤ 0
  · rw [Pillar.update_of_recycle p colors last_x speed rc rh h]
  · rw [Pillar.update_of_translate p colors last_x speed rc rh h]

/-! ### C3 -/

/-- Every pillar built by `MainState::new` satisfies the gap invariant,
whatever the random height and color draws were. -/
theorem gapInv_new (heights : Nat → ℚ) (colorIdxs : Nat → Nat) (pci : Nat) :
    ∀ pl ∈ (MainState.new heights colorIdxs pci).pillars, gapInv pl := by
  intro pl hpl
  simp only [MainState.new, List.mem_map, List.mem_range] at hpl
  obtain ⟨i, _, rfl⟩ := hpl
  exact ⟨rfl, rfl⟩

/-- C3: the gap invariant `bottom.y = top.h + PILLAR_GAP ∧ bottom.h =
WINDOW_HEIGHT - bottom.y` holds for every pillar at session start, and is
preserved by every `Pillar::update`, in the translate-only branch as well as
in the recycle branch. -/
theorem c3_gap_invariant :
    (∀ (heights : Nat → ℚ) (colorIdxs : Nat → Nat) (pci : Nat),
      ∀ pl ∈ (MainState.new heights colorIdxs pci).pillars, gapInv pl) ∧
    (∀ (p : Pillar) (colors : List Color) (last_x speed : ℚ) (rc : Nat) (rh : ℚ),
      gapInv p → gapInv (p.update colors last_x speed rc rh)) := by
  refine ⟨gapInv_new, ?_⟩
  intro p colors last_x speed rc rh hp
  by_cases h : p.top.x + speed + PILLAR_WIDTH ≤ 0
  · rw [Pillar.update_of_recycle p colors last_x speed rc rh h]
    exact ⟨rfl, rfl⟩
  · rw [Pillar.update_of_translate p colors last_x speed rc rh h]
    exact hp

/-- Concrete pillar for the C3 witness; its right edge is already left of
the screen, so the update below exercises the recycle branch. -/
def c3Pillar : Pillar := ⟨dfltColor, ⟨-100, 0, 80, 50⟩, ⟨-100, 270, 80, 330⟩⟩

/-- Witness for C3: a concrete session start satisfies the invariant, and a
concrete recycling update preserves it. -/
theorem c3_witness :
    gapInv c3Pillar ∧
    (∀ pl ∈ (MainState.new (fun _ => 100) (fun _ => 0) 0).pillars, gapInv pl) ∧
    gapInv (c3Pillar.update colors_list 500 (-2) 1 100) :=
  ⟨by with_unfolding_all decide,
   c3_gap_invariant.1 (fun _ => 100) (fun _ => 0) 0,
   c3_gap_invariant.2 c3Pillar colors_list 500 (-2) 1 100 (by with_unfolding_all decide)⟩

/-! ### C4 -/

/-- C4: a pillar whose top-right edge ends up at or left of `x = 0` after
the tick's translation is recycled: both blocks move to `predecessor_x +
PILLAR_DISTANCE`, the new color is a palette member and the new gap-top
height lies in `[0, WINDOW_HEIGHT - PILLAR_GAP)` (given that the random
draws respect the `gen_range` bounds); a pillar whose right edge stays
right of `x = 0` is only translated by `speed`. -/
theorem c4_recycle_and_translate (p : Pillar) (colors : List Color)
    (last_x speed : ℚ) (rc : Nat) (rh : ℚ) :
    (p.top.x + speed + PILLAR_WIDTH ≤ 0 → rc < colors.length →
      0 ≤ rh → rh < WINDOW_HEIGHT - PILLAR_GAP →
      (p.update colors last_x speed rc rh).top.x = last_x + PILLAR_DISTANCE ∧
      (p.update colors last_x speed rc rh).bottom.x = last_x + PILLAR_DISTANCE ∧
      (p.update colors last_x speed rc rh).color ∈ colors ∧
      0 ≤ (p.update colors last_x speed rc rh).top.h ∧
      (p.update colors last_x speed rc rh).top.h < WINDOW_HEIGHT - PILLAR_GAP) ∧
    (0 < p.top.x + speed + PILLAR_WIDTH →
      p.update colors last_x speed rc rh =
        { p with top := { p.top with x := p.top.x + speed },
                 bottom := { p.bottom with x := p.bottom.x + speed } }) := by
  constructor
  · intro hoff hrc hrh0 hrh1
    rw [Pillar.update_of_recycle p colors last_x speed rc rh hoff]
    refine ⟨rfl, rfl, ?_, hrh0, hrh1⟩
    rw [List.getD_eq_getElem colors dfltColor hrc]
    exact List.getElem_mem hrc
  · intro hon
    exact Pillar.update_of_translate p colors last_x speed rc rh (by linarith)

/-- Concrete pillar for the C4 witness (right edge at x = 50 + 80). -/
def c4Pillar : Pillar := ⟨dfltColor, ⟨50, 0, 80, 50⟩, ⟨50, 270, 80, 330⟩⟩

/-- Witness for C4: with speed -200 the concrete pillar recycles to
`last_x + PILLAR_DISTANCE` with palette color and in-range height; with
speed -1 it is only translated. -/
theorem c4_witness :
    ((50 : ℚ) + -200 + PILLAR_WIDTH ≤ 0 ∧
      (c4Pillar.update colors_list 700 (-200) 2 (100 : ℚ)).top.x = 700 + PILLAR_DISTANCE ∧
      (c4Pillar.update colors_list 700 (-200) 2 (100 : ℚ)).bottom.x = 700 + PILLAR_DISTANCE ∧
      (c4Pillar.update colors_list 700 (-200) 2 (100 : ℚ)).color ∈ colors_list ∧
      0 ≤ (c4Pillar.update colors_list 700 (-200) 2 (100 : ℚ)).top.h ∧
      (c4Pillar.update colors_list 700 (-200) 2 (100 : ℚ)).top.h < WINDOW_HEIGHT - PILLAR_GAP) ∧
    ((0 : ℚ) < 50 + -1 + PILLAR_WIDTH ∧
      c4Pillar.update colors_list 700 (-1) 2 (100 : ℚ) =
        { c4Pillar with top := { c4Pillar.top with x := 50 + -1 },
                        bottom := { c4Pillar.bottom with x := 50 + -1 } }) :=
  ⟨⟨by with_unfolding_all decide,
    (c4_recycle_and_translate c4Pillar colors_list 700 (-200) 2 100).1
      (by with_unfolding_all decide) (by with_unfolding_all decide)
      (by with_unfolding_all decide) (by with_unfolding_all decide)⟩,
   ⟨by with_unfolding_all decide,
    (c4_recycle_and_translate c4Pillar colors_list 700 (-1) 2 100).2
      (by with_unfolding_all decide)⟩⟩

/-! ### C7 -/

/-- C7: once `game_over` is set, a logic tick is the identity on the whole
session state: pillars, player, speed, score and all cached texts. -/
theorem c7_game_over_tick_is_noop (s : MainState) (rnd : Nat → Nat × ℚ)
    (introWidth : ℚ) (h : s.game_over = true) :
    s.update rnd introWidth = s := by
  unfold MainState.update
  rw [if_pos h]

/-- A concrete crashed session for the C7 witness. -/
def c7State : MainState :=
  { MainState.new (fun _ => 100) (fun _ => 0) 0 with game_over := true }

/-- Witness for C7: ticking the concrete crashed session changes nothing. -/
theorem c7_witness :
    c7State.game_over = true ∧ c7State.update (fun _ => (0, 0)) 0 = c7State :=
  ⟨rfl, c7_game_over_tick_is_noop c7State (fun _ => (0, 0)) 0 rfl⟩

/-! ### C9 -/

/-- C9: during play, the jump key overwrites the vertical velocity with the
constant `JUMP_AMOUNT`, whatever it was before, and pressing jump twice is
the same as pressing it once. -/
theorem c9_jump_overrides_velocity (s : MainState) (heights : Nat → ℚ)
    (colorIdxs : Nat → Nat) (pci : Nat) (h : s.game_over = false) :
    (s.key_down_event Key.space heights colorIdxs pci).player.velocity.y
        = JUMP_AMOUNT ∧
    (s.key_down_event Key.space heights colorIdxs pci).key_down_event Key.space
        heights colorIdxs pci
      = s.key_down_event Key.space heights colorIdxs pci := by
  unfold MainState.key_down_event
  simp [h]

/-- A concrete playing session with downward velocity for the C9 witness. -/
def c9State : MainState :=
  { MainState.new (fun _ => 100) (fun _ => 0) 0 with
      player := { (MainState.new (fun _ => 100) (fun _ => 0) 0).player with
                    velocity := ⟨0, 37⟩ } }

/-- Witness for C9: jumping from velocity 37 yields `JUMP_AMOUNT`, and a
second jump changes nothing further. -/
theorem c9_witness :
    c9State.game_over = false ∧
    ((c9State.key_down_event Key.space (fun _ => 100) (fun _ => 0) 0).player.velocity.y
        = JUMP_AMOUNT ∧
     (c9State.key_down_event Key.space (fun _ => 100) (fun _ => 0) 0).key_down_event
        Key.space (fun _ => 100) (fun _ => 0) 0
       = c9State.key_down_event Key.space (fun _ => 100) (fun _ => 0) 0) :=
  ⟨rfl, c9_jump_overrides_velocity c9State (fun _ => 100) (fun _ => 0) 0 rfl⟩

/-! ### Projections of a logic tick -/

theorem update_preserves_player_identity (s : MainState) (rnd : Nat → Nat × ℚ)
    (introWidth : ℚ) :
    (s.update rnd introWidth).player.color_index = s.player.color_index ∧
    (s.update rnd introWidth).player.color = s.player.color ∧
    (s.update rnd introWidth).player.body.x = s.player.body.x ∧
    (s.update rnd introWidth).player.body.w = s.player.body.w ∧
    (s.update rnd introWidth).player.velocity.x = s.player.velocity.x ∧
    (s.update rnd introWidth).colors = s.colors := by
  unfold MainState.update
  split
  · exact ⟨rfl, rfl, rfl, rfl, rfl, rfl⟩
  · exact ⟨rfl, rfl, rfl, rfl, rfl, rfl⟩

/-! ### C8 -/

/-- The palette invariant of the player (spec §8): the stored color is the
palette entry at the stored index, and the index is in range. -/
def colorInv (s : MainState) : Prop :=
  s.player.color_index < s.colors.length ∧
  s.player.color = s.colors.getD s.player.color_index dfltColor

instance (s : MainState) : Decidable (colorInv s) := by
  unfold colorInv; infer_instance

theorem colorInv_new (heights : Nat → ℚ) (colorIdxs : Nat → Nat) (pci : Nat)
    (h : pci < colors_list.length) : colorInv (MainState.new heights colorIdxs pci) :=
  ⟨h, rfl⟩

theorem colorInv_update (s : MainState) (rnd : Nat → Nat × ℚ) (introWidth : ℚ)
    (h : colorInv s) : colorInv (s.update rnd introWidth) := by
  obtain ⟨h1, h2⟩ := h
  obtain ⟨e1, e2, -, -, -, e6⟩ := update_preserves_player_identity s rnd introWidth
  constructor
  · rw [e1, e6]; exact h1
  · rw [e1, e2, e6]; exact h2

theorem colorInv_key_down (s : MainState) (keycode : Key) (heights : Nat → ℚ)
    (colorIdxs : Nat → Nat) (pci : Nat) (h : colorInv s)
    (hp : pci < colors_list.length) :
    colorInv (s.key_down_event keycode heights colorIdxs pci) := by
  unfold MainState.key_down_event
  by_cases hgo : s.game_over
  · rw [if_neg (fun hc => hc hgo)]
    by_cases hk : keycode = Key.enter
    · rw [if_pos hk]
      exact colorInv_new heights colorIdxs pci hp
    · rw [if_neg hk]
      exact h
  · rw [if_pos hgo]
    by_cases hk1 : keycode = Key.space
    · rw [if_pos hk1]
      exact h
    · rw [if_neg hk1]
      by_cases hk2 : keycode = Key.lcontrol ∨ keycode = Key.rcontrol
      · rw [if_pos hk2]
        exact ⟨Nat.mod_lt _ (lt_of_le_of_lt (Nat.zero_le _) h.1), rfl⟩
      · rw [if_neg hk2]
        exact h

/-- C8: `player.color = palette[player.color_index]` holds at session start
and is preserved by ticks and by every key event; the color switch advances
the index cyclically modulo the palette length and reassigns the color to
the palette entry at the new index. -/
theorem c8_player_color_invariant :
    (∀ (heights : Nat → ℚ) (colorIdxs : Nat → Nat) (pci : Nat),
      pci < colors_list.length → colorInv (MainState.new heights colorIdxs pci)) ∧
    (∀ (s : MainState) (rnd : Nat → Nat × ℚ) (introWidth : ℚ),
      colorInv s → colorInv (s.update rnd introWidth)) ∧
    (∀ (s : MainState) (keycode : Key) (heights : Nat → ℚ) (colorIdxs : Nat → Nat)
        (pci : Nat), colorInv s → pci < colors_list.length →
      colorInv (s.key_down_event keycode heights colorIdxs pci)) ∧
    (∀ (s : MainState) (heights : Nat → ℚ) (colorIdxs : Nat → Nat) (pci : Nat),
      s.game_over = false →
      (s.key_down_event Key.lcontrol heights colorIdxs pci).player.color_index
          = (s.player.color_index + 1) % s.colors.length ∧
      (s.key_down_event Key.lcontrol heights colorIdxs pci).player.color
          = s.colors.getD ((s.player.color_index + 1) % s.colors.length) dfltColor) := by
  refine ⟨colorInv_new, colorInv_update, colorInv_key_down, ?_⟩
  intro s heights colorIdxs pci h
  unfold MainState.key_down_event
  simp [h]

/-- A concrete playing session for the C8 witness. -/
def c8State : MainState := MainState.new (fun _ => 100) (fun _ => 0) 3

/-- Witness for C8: the invariant holds concretely at start, after a tick
and after a color switch, and the switch steps the index from 3 to 4. -/
theorem c8_witness :
    ((3 : Nat) < colors_list.length ∧ colorInv (MainState.new (fun _ => 100) (fun _ => 0) 3)) ∧
    (colorInv (c8State.update (fun _ => (0, 0)) 0)) ∧
    (colorInv (c8State.key_down_event Key.lcontrol (fun _ => 100) (fun _ => 0) 3)) ∧
    (c8State.game_over = false ∧
      (c8State.key_down_event Key.lcontrol (fun _ => 100) (fun _ => 0) 3).player.color_index
        = (c8State.player.color_index + 1) % c8State.colors.length ∧
      (c8State.key_down_event Key.lcontrol (fun _ => 100) (fun _ => 0) 3).player.color
        = c8State.colors.getD ((c8State.player.color_index + 1) % c8State.colors.length)
            dfltColor) :=
  ⟨⟨by decide,
    c8_player_color_invariant.1 (fun _ => 100) (fun _ => 0) 3 (by decide)⟩,
   c8_player_color_invariant.2.1 c8State (fun _ => (0, 0)) 0 ⟨by decide, rfl⟩,
   c8_player_color_invariant.2.2.1 c8State Key.lcontrol (fun _ => 100) (fun _ => 0) 3
     ⟨by decide, rfl⟩ (by decide),
   ⟨rfl, c8_player_color_invariant.2.2.2 c8State (fun _ => 100) (fun _ => 0) 3 rfl⟩⟩

/-! ### C10 -/

/-- The frame condition of C10: the player sits horizontally at the window
center with no horizontal velocity. -/
def xInv (s : MainState) : Prop :=
  s.player.body.x = WINDOW_WIDTH / 2 ∧ s.player.velocity.x = 0

instance (s : MainState) : Decidable (xInv s) := by
  unfold xInv; infer_instance

/-- C10: `body.x` is set to `WINDOW_WIDTH / 2` at construction, and neither
a logic tick nor any key event short of a restart changes `body.x` or
`velocity.x`. -/
theorem c10_player_never_moves_horizontally :
    (∀ (heights : Nat → ℚ) (colorIdxs : Nat → Nat) (pci : Nat),
      xInv (MainState.new heights colorIdxs pci)) ∧
    (∀ (s : MainState) (rnd : Nat → Nat × ℚ) (introWidth : ℚ),
      xInv s → xInv (s.update rnd introWidth)) ∧
    (∀ (s : MainState) (keycode : Key) (heights : Nat → ℚ) (colorIdxs : Nat → Nat)
        (pci : Nat), keycode ≠ Key.enter → xInv s →
      xInv (s.key_down_event keycode heights colorIdxs pci)) := by
  refine ⟨fun heights colorIdxs pci => ⟨rfl, rfl⟩, ?_, ?_⟩
  · intro s rnd introWidth h
    obtain ⟨-, -, e3, -, e5, -⟩ := update_preserves_player_identity s rnd introWidth
    exact ⟨e3 ▸ h.1, e5 ▸ h.2⟩
  · intro s keycode heights colorIdxs pci hk h
    unfold MainState.key_down_event
    by_cases hgo : s.game_over
    · rw [if_neg (fun hc => hc hgo)]
      by_cases hk1 : keycode = Key.enter
      · exact absurd hk1 hk
      · rw [if_neg hk1]
        exact h
    · rw [if_pos hgo]
      by_cases hk1 : keycode = Key.space
      · rw [if_pos hk1]
        exact h
      · rw [if_neg hk1]
        by_cases hk2 : keycode = Key.lcontrol ∨ keycode = Key.rcontrol
        · rw [if_pos hk2]
          exact h
        · rw [if_neg hk2]
          exact h

/-- Witness for C10: concretely, the start state has the player at the
horizontal center, and a tick and a jump keep it there. -/
theorem c10_witness :
    xInv (MainState.new (fun _ => 100) (fun _ => 0) 0) ∧
    xInv (c8State.update (fun _ => (0, 0)) 0) ∧
    (Key.space ≠ Key.enter ∧
      xInv (c8State.key_down_event Key.space (fun _ => 100) (fun _ => 0) 3)) :=
  ⟨c10_player_never_moves_horizontally.1 (fun _ => 100) (fun _ => 0) 0,
   c10_player_never_moves_horizontally.2.1 c8State (fun _ => (0, 0)) 0
     (by with_unfolding_all decide),
   ⟨by with_unfolding_all decide,
    c10_player_never_moves_horizontally.2.2 c8State Key.space (fun _ => 100) (fun _ => 0) 3
      (by with_unfolding_all decide) (by with_unfolding_all decide)⟩⟩

/-! ### C6 -/

/-- The x-position of the `i`-th pillar built by `MainState::new`. -/
theorem new_pillar_top_x (heights : Nat → ℚ) (colorIdxs : Nat → Nat) (pci : Nat)
    (i : Nat) (hi : i < NUM_PILLARS) :
    ((MainState.new heights colorIdxs pci).pillars.getD i dfltPillar).top.x
      = WINDOW_WIDTH + PILLAR_DISTANCE * (i : ℚ) := by
  have hl : i < ((MainState.new heights colorIdxs pci).pillars).length := by
    simpa [MainState.new] using hi
  rw [List.getD_eq_getElem _ dfltPillar hl]
  simp [MainState.new]

/-- C6: pressing the restart key after a game over rebuilds the whole
session: the result is exactly `MainState::new` with fresh draws, whose
score is 0, `game_over` is false, scroll speed is the initial -1, and whose
pillar collection has exactly `NUM_PILLARS` pillars, spaced
`PILLAR_DISTANCE` apart, all satisfying the gap invariant. -/
theorem c6_restart_rebuilds_session (s : MainState) (heights : Nat → ℚ)
    (colorIdxs : Nat → Nat) (pci : Nat) (h : s.game_over = true) :
    s.key_down_event Key.enter heights colorIdxs pci
        = MainState.new heights colorIdxs pci ∧
    (MainState.new heights colorIdxs pci).score = 0 ∧
    (MainState.new heights colorIdxs pci).game_over = false ∧
    (MainState.new heights colorIdxs pci).pillar_speed = -1 ∧
    (MainState.new heights colorIdxs pci).pillars.length = NUM_PILLARS ∧
    (∀ i, i + 1 < (MainState.new heights colorIdxs pci).pillars.length →
      ((MainState.new heights colorIdxs pci).pillars.getD (i + 1) dfltPillar).top.x
        = ((MainState.new heights colorIdxs pci).pillars.getD i dfltPillar).top.x
            + PILLAR_DISTANCE) ∧
    (∀ pl ∈ (MainState.new heights colorIdxs pci).pillars, gapInv pl) := by
  refine ⟨?_, rfl, rfl, rfl, by simp [MainState.new], ?_, gapInv_new heights colorIdxs pci⟩
  · unfold MainState.key_down_event
    simp [h]
  · intro i hi
    have hlen : (MainState.new heights colorIdxs pci).pillars.length = NUM_PILLARS := by
      simp [MainState.new]
    rw [hlen] at hi
    rw [new_pillar_top_x heights colorIdxs pci (i + 1) hi,
        new_pillar_top_x heights colorIdxs pci i (Nat.lt_of_succ_lt hi)]
    push_cast
    ring

/-- A concrete crashed session for the C6 witness. -/
def c6State : MainState :=
  { MainState.new (fun _ => 50) (fun _ => 0) 0 with game_over := true }

/-- Witness for C6: restarting the concrete crashed session yields a fresh
session with the advertised shape. -/
theorem c6_witness :
    c6State.game_over = true ∧
    (c6State.key_down_event Key.enter (fun _ => 7) (fun _ => 1) 2
        = MainState.new (fun _ => 7) (fun _ => 1) 2 ∧
     (MainState.new (fun _ => 7) (fun _ => 1) 2).score = 0 ∧
     (MainState.new (fun _ => 7) (fun _ => 1) 2).game_over = false ∧
     (MainState.new (fun _ => 7) (fun _ => 1) 2).pillar_speed = -1 ∧
     (MainState.new (fun _ => 7) (fun _ => 1) 2).pillars.length = NUM_PILLARS ∧
     (∀ i, i + 1 < (MainState.new (fun _ => 7) (fun _ => 1) 2).pillars.length →
       ((MainState.new (fun _ => 7) (fun _ => 1) 2).pillars.getD (i + 1) dfltPillar).top.x
         = ((MainState.new (fun _ => 7) (fun _ => 1) 2).pillars.getD i dfltPillar).top.x
             + PILLAR_DISTANCE) ∧
     (∀ pl ∈ (MainState.new (fun _ => 7) (fun _ => 1) 2).pillars, gapInv pl)) :=
  ⟨rfl, c6_restart_rebuilds_session c6State (fun _ => 7) (fun _ => 1) 2 rfl⟩

/-! ### C5: infrastructure on session runs -/

theorem update_of_game_over (s : MainState) (rnd : Nat → Nat × ℚ) (introWidth : ℚ)
    (h : s.game_over = true) : s.update rnd introWidth = s := by
  unfold MainState.update
  rw [if_pos h]

theorem update_pillars_eq (s : MainState) (rnd : Nat → Nat × ℚ) (introWidth : ℚ)
    (hgo : s.game_over = false) :
    (s.update rnd introWidth).pillars
      = updatePillars s.pillars s.colors (s.pillar_speed + PILLAR_ACCELERATION) rnd := by
  unfold MainState.update
  rw [if_neg (by simp [hgo])]

theorem update_speed_eq (s : MainState) (rnd : Nat → Nat × ℚ) (introWidth : ℚ)
    (hgo : s.game_over = false) :
    (s.update rnd introWidth).pillar_speed = s.pillar_speed + PILLAR_ACCELERATION := by
  unfold MainState.update
  rw [if_neg (by simp [hgo])]

theorem updatePillars_getD (pillars : List Pillar) (colors : List Color) (speed : ℚ)
    (rnd : Nat → Nat × ℚ) (i : Nat) (hi : i < pillars.length) :
    (updatePillars pillars colors speed rnd).getD i dfltPillar
      = (pillars.getD i dfltPillar).update colors
          (if i = 0 then (pillars.getD (pillars.length - 1) dfltPillar).top.x
           else (pillars.getD (i - 1) dfltPillar).top.x)
          speed (rnd i).1 (rnd i).2 := by
  unfold updatePillars
  rw [List.getD_eq_getElem _ dfltPillar (by simpa using hi)]
  simp only [List.getElem_map, List.getElem_range]

theorem updatePillars_length (pillars : List Pillar) (colors : List Color) (speed : ℚ)
    (rnd : Nat → Nat × ℚ) :
    (updatePillars pillars colors speed rnd).length = pillars.length := by
  unfold updatePillars
  simp

/-- The `i`-th pillar of a session state. -/
def pillarAt (s : MainState) (i : Nat) : Pillar := s.pillars.getD i dfltPillar

/-- Invariant of every reachable session state used in the scoring
analysis: the player is a 50-wide cube horizontally fixed at the window
center, the scroll speed is at most -1, and there are `NUM_PILLARS` pillars
of width `PILLAR_WIDTH`. -/
def SessionInv (s : MainState) : Prop :=
  s.player.body.x = WINDOW_WIDTH / 2 ∧ s.player.body.w = 50 ∧
  s.pillar_speed ≤ -1 ∧ (∀ pl ∈ s.pillars, pl.top.w = PILLAR_WIDTH) ∧
  s.pillars.length = NUM_PILLARS

instance (s : MainState) : Decidable (SessionInv s) := by
  unfold SessionInv; infer_instance

theorem pillarAt_mem (s : MainState) (i : Nat) (hi : i < s.pillars.length) :
    pillarAt s i ∈ s.pillars := by
  unfold pillarAt
  rw [List.getD_eq_getElem _ dfltPillar hi]
  exact List.getElem_mem hi

theorem SessionInv_update (s : MainState) (rnd : Nat → Nat × ℚ) (introWidth : ℚ)
    (h : SessionInv s) : SessionInv (s.update rnd introWidth) := by
  by_cases hgo : s.game_over
  · rw [update_of_game_over s rnd introWidth hgo]
    exact h
  · have hgo' : s.game_over = false := by
      cases hh : s.game_over
      · rfl
      · exact absurd hh hgo
    obtain ⟨h1, h2, h3, h4, h5⟩ := h
    obtain ⟨-, -, e3, e4, -, -⟩ := update_preserves_player_identity s rnd introWidth
    refine ⟨e3 ▸ h1, e4 ▸ h2, ?_, ?_, ?_⟩
    · rw [update_speed_eq s rnd introWidth hgo']
      have hacc : PILLAR_ACCELERATION ≤ 0 := by norm_num [PILLAR_ACCELERATION]
      linarith
    · intro pl hpl
      rw [update_pillars_eq s rnd introWidth hgo'] at hpl
      unfold updatePillars at hpl
      obtain ⟨j, hj, rfl⟩ := List.mem_map.mp hpl
      rw [Pillar.update_top_w]
      exact h4 _ (pillarAt_mem s j (List.mem_range.mp hj))
    · rw [update_pillars_eq s rnd introWidth hgo', updatePillars_length]
      exact h5

theorem SessionInv_run (s0 : MainState) (rnd : Nat → Nat → Nat × ℚ) (w : Nat → ℚ)
    (h : SessionInv s0) : ∀ t, SessionInv (MainState.run s0 rnd w t) := by
  intro t
  induction t with
  | zero => exact h
  | succ n ih => exact SessionInv_update _ (rnd n) (w n) ih

theorem run_go_false_earlier (s0 : MainState) (rnd : Nat → Nat → Nat × ℚ)
    (w : Nat → ℚ) : ∀ t u, t ≤ u → (MainState.run s0 rnd w u).game_over = false →
    (MainState.run s0 rnd w t).game_over = false := by
  intro t u
  induction u with
  | zero =>
    intro ht hu
    rw [Nat.le_zero.mp ht]
    exact hu
  | succ n ih =>
    intro ht hu
    by_cases hg : (MainState.run s0 rnd w n).game_over
    · exfalso
      have := update_of_game_over (MainState.run s0 rnd w n) (rnd n) (w n) hg
      rw [show MainState.run s0 rnd w (n + 1)
            = (MainState.run s0 rnd w n).update (rnd n) (w n) from rfl, this, hg] at hu
      exact Bool.noConfusion hu
    · have hgn : (MainState.run s0 rnd w n).game_over = false := by
        cases hh : (MainState.run s0 rnd w n).game_over
        · rfl
        · exact absurd hh hg
      by_cases heq : t = n + 1
      · rw [heq]
        exact hu
      · exact ih (by omega) hgn

/-- Position change of pillar `i` over one active tick when it is not
recycled: pure translation by the tick's (already accelerated) speed. -/
theorem pillarAt_tick (s : MainState) (rnd : Nat → Nat × ℚ) (introWidth : ℚ)
    (i : Nat) (hgo : s.game_over = false) (hi : i < s.pillars.length)
    (hnr : ¬ ((pillarAt s i).top.x + (s.pillar_speed + PILLAR_ACCELERATION)
        + PILLAR_WIDTH ≤ 0)) :
    (pillarAt (s.update rnd introWidth) i).top.x
      = (pillarAt s i).top.x + (s.pillar_speed + PILLAR_ACCELERATION) := by
  unfold pillarAt at hnr ⊢
  rw [update_pillars_eq s rnd introWidth hgo,
      updatePillars_getD s.pillars s.colors _ rnd i hi,
      Pillar.update_of_translate _ _ _ _ _ _ hnr]

theorem pillarAt_top_w (s : MainState) (h : SessionInv s) (i : Nat)
    (hi : i < NUM_PILLARS) : (pillarAt s i).top.w = PILLAR_WIDTH := by
  have hlen : i < s.pillars.length := by
    rw [h.2.2.2.2]
    exact hi
  exact h.2.2.2.1 _ (pillarAt_mem s i hlen)

/-- For the horizontally fixed 50-wide player and an 80-wide pillar, the
scoring condition of line 146 is equivalent to the pillar's x-position
truncating to 385. -/
theorem centerAligned_iff (p : Player) (pillar : Pillar)
    (hx : p.body.x = WINDOW_WIDTH / 2) (hw : p.body.w = 50)
    (hpw : pillar.top.w = PILLAR_WIDTH) :
    centerAligned p pillar = true ↔ truncQ pillar.top.x = 385 := by
  unfold centerAligned
  rw [hx, hw, hpw]
  rw [show WINDOW_WIDTH / 2 = (400 : ℚ) by norm_num [WINDOW_WIDTH]]
  rw [show (50 : ℚ) / 2 = (25 : ℚ) by norm_num]
  rw [show PILLAR_WIDTH / 2 = (40 : ℚ) by norm_num [PILLAR_WIDTH]]
  rw [show truncQ (400 : ℚ) = 400 from by decide]
  rw [show truncQ (25 : ℚ) = 25 from by decide]
  rw [show truncQ (40 : ℚ) = 40 from by decide]
  rw [decide_eq_true_iff]
  omega

/-- Tick `t` (turning run state `t` into run state `t + 1`) increments the
score on account of pillar `i`: the game is still on, and after the tick's
pillar advance the pillar horizontally overlaps the player with truncated
centers aligned — exactly the condition under which the collision loop of
tick `t` adds 1 to the score for this pillar. -/
def scoreHitAt (s0 : MainState) (rnd : Nat → Nat → Nat × ℚ) (w : Nat → ℚ)
    (i t : Nat) : Prop :=
  (MainState.run s0 rnd w t).game_over = false ∧
  scoreCond (MainState.run s0 rnd w (t + 1)).player
    (pillarAt (MainState.run s0 rnd w (t + 1)) i) = true

instance (s0 : MainState) (rnd : Nat → Nat → Nat × ℚ) (w : Nat → ℚ) (i t : Nat) :
    Decidable (scoreHitAt s0 rnd w i t) := by
  unfold scoreHitAt; infer_instance

/-- Tick `t` recycles pillar `i`: after the tick's translation by the
accelerated speed, the pillar's right edge is at or left of `x = 0`.  A
recycle starts a new pass of the pillar. -/
def recyclesAt (s0 : MainState) (rnd : Nat → Nat → Nat × ℚ) (w : Nat → ℚ)
    (i t : Nat) : Prop :=
  (pillarAt (MainState.run s0 rnd w t) i).top.x
      + ((MainState.run s0 rnd w t).pillar_speed + PILLAR_ACCELERATION)
      + PILLAR_WIDTH ≤ 0

instance (s0 : MainState) (rnd : Nat → Nat → Nat × ℚ) (w : Nat → ℚ) (i t : Nat) :
    Decidable (recyclesAt s0 rnd w i t) := by
  unfold recyclesAt; infer_instance

/-! ### C5 -/

/-- C5: within a single pass of a pillar across the player (no recycle of
that pillar between the two ticks), the score-increment condition can fire
at only one tick: if it fires at tick `t1` it cannot fire again at any
later tick `t2` of the same pass.  This holds for any start state whose
player is the horizontally centered 50-wide cube, whose pillars are the
`NUM_PILLARS` blocks of width `PILLAR_WIDTH`, and whose scroll speed is at
most -1 — all invariants of every session. -/
theorem c5_score_fires_at_most_once_per_pass (s0 : MainState)
    (rnd : Nat → Nat → Nat × ℚ) (w : Nat → ℚ) (i t1 t2 : Nat)
    (hInv : SessionInv s0) (hi : i < NUM_PILLARS) (hlt : t1 < t2)
    (hpass : ∀ t, t1 < t → t ≤ t2 → ¬ recyclesAt s0 rnd w i t)
    (hfire : scoreHitAt s0 rnd w i t1) : ¬ scoreHitAt s0 rnd w i t2 := by
  intro hfire2
  obtain ⟨hgo1, hsc1⟩ := hfire
  obtain ⟨hgo2, hsc2⟩ := hfire2
  have hInvAll : ∀ t, SessionInv (MainState.run s0 rnd w t) :=
    SessionInv_run s0 rnd w hInv
  have hgoAll : ∀ t, t ≤ t2 → (MainState.run s0 rnd w t).game_over = false :=
    fun t ht => run_go_false_earlier s0 rnd w t t2 ht hgo2
  have hiLen : ∀ t, i < (MainState.run s0 rnd w t).pillars.length := by
    intro t
    rw [(hInvAll t).2.2.2.2]
    exact hi
  -- alignment at tick t1 pins the pillar's position to [385, 386)
  have hal1 : truncQ (pillarAt (MainState.run s0 rnd w (t1 + 1)) i).top.x = 385 := by
    refine (centerAligned_iff _ _ (hInvAll (t1 + 1)).1 (hInvAll (t1 + 1)).2.1
      (pillarAt_top_w _ (hInvAll (t1 + 1)) i hi)).mp ?_
    exact (Bool.and_eq_true _ _).mp hsc1 |>.2
  have hub : (pillarAt (MainState.run s0 rnd w (t1 + 1)) i).top.x < 386 := by
    have := lt_add_one_of_truncQ_eq _ 385 (by norm_num) hal1
    push_cast at this
    linarith
  -- each tick of the pass moves the pillar at least 1 to the left
  have hstep : ∀ u, t1 < u → u ≤ t2 →
      (pillarAt (MainState.run s0 rnd w (u + 1)) i).top.x
        ≤ (pillarAt (MainState.run s0 rnd w u) i).top.x - 1 := by
    intro u hu1 hu2
    have hg : (MainState.run s0 rnd w u).game_over = false := hgoAll u hu2
    have hnr := hpass u hu1 hu2
    unfold recyclesAt at hnr
    rw [show MainState.run s0 rnd w (u + 1)
          = (MainState.run s0 rnd w u).update (rnd u) (w u) from rfl]
    rw [pillarAt_tick _ (rnd u) (w u) i hg (hiLen u) hnr]
    have hsp := (hInvAll u).2.2.1
    have hacc : PILLAR_ACCELERATION ≤ 0 := by norm_num [PILLAR_ACCELERATION]
    linarith
  have hdec : ∀ u, t1 + 1 ≤ u → u ≤ t2 →
      (pillarAt (MainState.run s0 rnd w (u + 1)) i).top.x
        ≤ (pillarAt (MainState.run s0 rnd w (t1 + 1)) i).top.x - 1 := by
    intro u hu
    induction u, hu using Nat.le_induction with
    | base =>
      intro hle
      exact hstep (t1 + 1) (by omega) hle
    | succ n hn ih =>
      intro hle
      have h1 := ih (by omega)
      have h2 := hstep (n + 1) (by omega) hle
      linarith
  -- hence at tick t2 the pillar sits strictly left of 385 …
  have hX2 : (pillarAt (MainState.run s0 rnd w (t2 + 1)) i).top.x < 385 := by
    have := hdec t2 (by omega) le_rfl
    linarith
  -- … contradicting the alignment required for a second hit
  have hal2 : truncQ (pillarAt (MainState.run s0 rnd w (t2 + 1)) i).top.x = 385 := by
    refine (centerAligned_iff _ _ (hInvAll (t2 + 1)).1 (hInvAll (t2 + 1)).2.1
      (pillarAt_top_w _ (hInvAll (t2 + 1)) i hi)).mp ?_
    exact (Bool.and_eq_true _ _).mp hsc2 |>.2
  exact truncQ_ne_of_lt _ 385 (by norm_num) (by exact_mod_cast hX2) hal2

/-- Concrete session for the C5 witness: pillar 0 is one tick short of
center alignment, the four other pillars are far to the right. -/
def c5State : MainState :=
  { colors := colors_list,
    player := ⟨0, colors_list.getD 0 dfltColor, ⟨400, 150, 50, 50⟩, ⟨0, 0⟩⟩,
    pillars :=
      [⟨colors_list.getD 0 dfltColor, ⟨386.5, 0, 80, 100⟩, ⟨386.5, 320, 80, 280⟩⟩,
       ⟨colors_list.getD 0 dfltColor, ⟨1000, 0, 80, 100⟩, ⟨1000, 320, 80, 280⟩⟩,
       ⟨colors_list.getD 0 dfltColor, ⟨1300, 0, 80, 100⟩, ⟨1300, 320, 80, 280⟩⟩,
       ⟨colors_list.getD 0 dfltColor, ⟨1600, 0, 80, 100⟩, ⟨1600, 320, 80, 280⟩⟩,
       ⟨colors_list.getD 0 dfltColor, ⟨1900, 0, 80, 100⟩, ⟨1900, 320, 80, 280⟩⟩],
    pillar_speed := -1,
    game_over := false,
    score := 0,
    texts := ⟨"Space to jump\nCtrl to switch colors", ⟨0, 0⟩, true, "0",
              "Oof! Press Enter to restart"⟩ }

/-- Witness for C5: in the concrete session, the scoring condition for
pillar 0 fires at tick 0 and, the pillar not being recycled, cannot fire
again at tick 1. -/
theorem c5_witness :
    SessionInv c5State ∧ (0 : Nat) < NUM_PILLARS ∧ (0 : Nat) < 1 ∧
    (∀ t, 0 < t → t ≤ 1 → ¬ recyclesAt c5State (fun _ _ => (0, 0)) (fun _ => 0) 0 t) ∧
    scoreHitAt c5State (fun _ _ => (0, 0)) (fun _ => 0) 0 0 ∧
    ¬ scoreHitAt c5State (fun _ _ => (0, 0)) (fun _ => 0) 0 1 :=
  ⟨by with_unfolding_all decide, by decide, by decide,
   by
    intro t h1 h2
    have ht : t = 1 := by omega
    rw [ht]
    with_unfolding_all decide,
   by with_unfolding_all decide,
   c5_score_fires_at_most_once_per_pass c5State (fun _ _ => (0, 0)) (fun _ => 0) 0 0 1
     (by with_unfolding_all decide) (by decide) (by decide)
     (by
       intro t h1 h2
       have ht : t = 1 := by omega
       rw [ht]
       with_unfolding_all decide)
     (by with_unfolding_all decide)⟩

end FlappyCube
